import Mathlib

/-!
Verification of the integer low-discrepancy sequence generators of
src/rust_ai/src/ilds.rs: the integer Van der Corput generator VdCorput
and its two-dimensional composition Halton.

All fields and intermediate values in the source are u32; arithmetic is
modelled on Nat with an explicit modulus 2^32 wherever the source
operation can overflow (release-mode wrapping semantics, which is also
how the specification describes the overflow behaviour).  The pop loop
`while k != 0` does not terminate for base 1 and panics (division by
zero) for base 0, so the loop is modelled with explicit fuel and an
Option result: none models a call that does not return normally.
-/

namespace LdsGen

/-- Modulus of the 32-bit unsigned integers used throughout ilds.rs. -/
def U32MOD : Nat := 2 ^ 32

/-- State of the integer Van der Corput generator, struct VdCorput in ilds.rs. -/
structure VdCorput where
  base : Nat
  scale : Nat
  count : Nat
  factor : Nat
deriving DecidableEq

/-- VdCorput.new from ilds.rs: stores base and scale, computes
factor = base.pow(scale) (wrapping modulo 2^32 on overflow) and starts
the counter at 0.  The source performs no validation of base or scale. -/
def VdCorput.new (base scale : Nat) : VdCorput :=
  { base := base, scale := scale, count := 0, factor := base ^ scale % U32MOD }

/-- The `while k != 0` loop body of VdCorput.pop, with explicit fuel.
Each iteration divides factor by base, adds (k % base) * factor to the
accumulator (wrapping modulo 2^32) and divides k by base.  The result is
none when the source call would not return normally: base = 0 panics on
division by zero, and exhausted fuel models a loop that never ends
(which happens exactly for base = 1 and k ≥ 1). -/
def popLoop (base : Nat) : Nat → Nat → Nat → Nat → Option Nat
  | 0, k, vdc, _ => if k = 0 then some vdc else none
  | fuel + 1, k, vdc, factor =>
    if k = 0 then some vdc
    else if base = 0 then none
    else
      let factor2 := factor / base
      popLoop base fuel (k / base) ((vdc + k % base * factor2) % U32MOD) factor2

/-- VdCorput.pop from ilds.rs: increments count (wrapping modulo 2^32),
runs the digit-reversal loop on the new count, and returns the
accumulated value together with the updated state.  Fuel count suffices:
for base ≥ 2 the loop runs at most count iterations since k strictly
decreases. -/
def VdCorput.pop (g : VdCorput) : Option (Nat × VdCorput) :=
  let c := (g.count + 1) % U32MOD
  match popLoop g.base c c 0 g.factor with
  | some v => some (v, { g with count := c })
  | none => none

/-- VdCorput.reseed from ilds.rs: overwrites count with the seed. -/
def VdCorput.reseed (g : VdCorput) (seed : Nat) : VdCorput :=
  { g with count := seed }

/-- n successive pop calls, collecting the returned values in order;
none as soon as one call fails to return. -/
def popN : VdCorput → Nat → Option (List Nat × VdCorput)
  | g, 0 => some ([], g)
  | g, n + 1 =>
    match g.pop with
    | none => none
    | some (v, g2) =>
      match popN g2 n with
      | none => none
      | some (vs, g3) => some (v :: vs, g3)

/-- State of the integer Halton generator, struct Halton in ilds.rs:
two VdCorput sub-generators. -/
structure Halton where
  vdc0 : VdCorput
  vdc1 : VdCorput
deriving DecidableEq

/-- Halton.new from ilds.rs: builds the two sub-generators from the
per-dimension bases and scales. -/
def Halton.new (base : Nat × Nat) (scale : Nat × Nat) : Halton :=
  { vdc0 := VdCorput.new base.1 scale.1, vdc1 := VdCorput.new base.2 scale.2 }

/-- Halton.pop from ilds.rs: pops both sub-generators and pairs the
results (none if either sub-call does not return normally). -/
def Halton.pop (h : Halton) : Option ((Nat × Nat) × Halton) :=
  match h.vdc0.pop with
  | none => none
  | some (v0, g0) =>
    match h.vdc1.pop with
    | none => none
    | some (v1, g1) => some ((v0, v1), { vdc0 := g0, vdc1 := g1 })

/-- Halton.reseed from ilds.rs: reseeds both sub-generators to the same
seed. -/
def Halton.reseed (h : Halton) (seed : Nat) : Halton :=
  { vdc0 := h.vdc0.reseed seed, vdc1 := h.vdc1.reseed seed }

/-- Modelled from the spec: the reference value of the specification,
the base-b digits of n reversed over s digit positions, i.e.
floor(b^s * radical_inverse_base_b(n)) = sum over i < s of
(i-th base-b digit of n) * b^(s-1-i).  This definition follows the
spec's words, to be compared against the code's loop. -/
def specScaledRadicalInverse (b : Nat) : Nat → Nat → Nat
  | _, 0 => 0
  | n, s + 1 => n % b * b ^ s + specScaledRadicalInverse b (n / b) s

theorem srinv_zero (b : Nat) : ∀ s, specScaledRadicalInverse b 0 s = 0 := by
  intro s
  induction s with
  | zero => rfl
  | succ s ih => simp [specScaledRadicalInverse, ih]

theorem srinv_lt (b : Nat) (hb : 0 < b) :
    ∀ s n, specScaledRadicalInverse b n s < b ^ s := by
  intro s
  induction s with
  | zero => intro n; simp [specScaledRadicalInverse]
  | succ s ih =>
    intro n
    have h1 : specScaledRadicalInverse b (n / b) s < b ^ s := ih (n / b)
    have h2 : n % b + 1 ≤ b := Nat.mod_lt n hb
    calc specScaledRadicalInverse b n (s + 1)
        = n % b * b ^ s + specScaledRadicalInverse b (n / b) s := rfl
      _ < n % b * b ^ s + b ^ s := Nat.add_lt_add_left h1 _
      _ = (n % b + 1) * b ^ s := by ring
      _ ≤ b * b ^ s := Nat.mul_le_mul_right _ h2
      _ = b ^ (s + 1) := by rw [pow_succ, Nat.mul_comm]

theorem srinv_mod (b : Nat) :
    ∀ s n, specScaledRadicalInverse b n s
      = specScaledRadicalInverse b (n % b ^ s) s := by
  intro s
  induction s with
  | zero => intro n; rfl
  | succ s ih =>
    intro n
    have hd : b ∣ b ^ (s + 1) := dvd_pow_self b (Nat.succ_ne_zero s)
    have h1 : n % b ^ (s + 1) % b = n % b := Nat.mod_mod_of_dvd n hd
    have h2 : n % b ^ (s + 1) / b = n / b % b ^ s := by
      rw [pow_succ', Nat.mod_mul_right_div_self]
    calc specScaledRadicalInverse b n (s + 1)
        = n % b * b ^ s + specScaledRadicalInverse b (n / b) s := rfl
      _ = n % b * b ^ s + specScaledRadicalInverse b (n / b % b ^ s) s := by
          rw [← ih (n / b)]
      _ = n % b ^ (s + 1) % b * b ^ s
            + specScaledRadicalInverse b (n % b ^ (s + 1) / b) s := by
          rw [h1, h2]
      _ = specScaledRadicalInverse b (n % b ^ (s + 1)) (s + 1) := rfl

theorem srinv_inj (b : Nat) (hb : 2 ≤ b) :
    ∀ s n m, n < b ^ s → m < b ^ s →
      specScaledRadicalInverse b n s = specScaledRadicalInverse b m s →
      n = m := by
  have hb0 : 0 < b := by omega
  intro s
  induction s with
  | zero =>
    intro n m hn hm _
    simp only [pow_zero, Nat.lt_one_iff] at hn hm
    omega
  | succ s ih =>
    intro n m hn hm h
    have hF : 0 < b ^ s := Nat.pos_pow_of_pos s hb0
    have rn : specScaledRadicalInverse b (n / b) s < b ^ s := srinv_lt b hb0 s (n / b)
    have rm : specScaledRadicalInverse b (m / b) s < b ^ s := srinv_lt b hb0 s (m / b)
    have h' : n % b * b ^ s + specScaledRadicalInverse b (n / b) s
        = m % b * b ^ s + specScaledRadicalInverse b (m / b) s := h
    have hq : ∀ a r : Nat, r < b ^ s → (a * b ^ s + r) / b ^ s = a := by
      intro a r hr
      rw [Nat.mul_comm a (b ^ s), Nat.mul_add_div hF, Nat.div_eq_of_lt hr]
      omega
    have ha : n % b = m % b := by
      have h1 := hq (n % b) _ rn
      have h2 := hq (m % b) _ rm
      rw [← h1, ← h2, h']
    have hr : specScaledRadicalInverse b (n / b) s
        = specScaledRadicalInverse b (m / b) s := by
      rw [ha] at h'
      omega
    have hdivn : n / b < b ^ s := by
      rw [Nat.div_lt_iff_lt_mul hb0]
      calc n < b ^ (s + 1) := hn
        _ = b ^ s * b := pow_succ b s
    have hdivm : m / b < b ^ s := by
      rw [Nat.div_lt_iff_lt_mul hb0]
      calc m < b ^ (s + 1) := hm
        _ = b ^ s * b := pow_succ b s
    have hd : n / b = m / b := ih (n / b) (m / b) hdivn hdivm hr
    have e1 := Nat.div_add_mod n b
    have e2 := Nat.div_add_mod m b
    rw [hd, ha] at e1
    omega

theorem popLoop_zero_factor (b : Nat) (hb : 2 ≤ b) :
    ∀ fuel k vdc, k ≤ fuel → vdc < U32MOD →
      popLoop b fuel k vdc 0 = some vdc := by
  intro fuel
  induction fuel with
  | zero =>
    intro k vdc hk _
    have : k = 0 := by omega
    simp [popLoop, this]
  | succ fuel ih =>
    intro k vdc hk hv
    by_cases hk0 : k = 0
    · simp [popLoop, hk0]
    · have hbne : b ≠ 0 := by omega
      have hkb : k / b < k := Nat.div_lt_self (by omega) (by omega)
      simp only [popLoop, hk0, if_false, hbne, Nat.zero_div, Nat.mul_zero,
        Nat.add_zero, Nat.mod_eq_of_lt hv]
      exact ih (k / b) vdc (by omega) hv

theorem popLoop_pow_factor (b : Nat) (hb : 2 ≤ b) :
    ∀ fuel k vdc s, k ≤ fuel → vdc + b ^ s ≤ U32MOD →
      popLoop b fuel k vdc (b ^ s)
        = some (vdc + specScaledRadicalInverse b k s) := by
  intro fuel
  induction fuel with
  | zero =>
    intro k vdc s hk _
    have : k = 0 := by omega
    simp [popLoop, this, srinv_zero]
  | succ fuel ih =>
    intro k vdc s hk hvs
    have hb0 : 0 < b := by omega
    by_cases hk0 : k = 0
    · simp [popLoop, hk0, srinv_zero]
    · have hbne : b ≠ 0 := by omega
      have hkb : k / b < k := Nat.div_lt_self (by omega) (by omega)
      have hpos : 0 < b ^ s := Nat.pos_pow_of_pos s hb0
      cases s with
      | zero =>
        have h1 : (1 : Nat) / b = 0 := Nat.div_eq_of_lt (by omega)
        simp only [popLoop, hk0, if_false, hbne, pow_zero, h1, Nat.mul_zero,
          Nat.add_zero, Nat.mod_eq_of_lt (show vdc < U32MOD by omega)]
        rw [popLoop_zero_factor b hb fuel (k / b) vdc (by omega)
          (by omega)]
        simp [specScaledRadicalInverse]
      | succ s2 =>
        have hdiv : b ^ (s2 + 1) / b = b ^ s2 := by
          rw [pow_succ, Nat.mul_div_cancel _ hb0]
        have hmod : k % b + 1 ≤ b := Nat.mod_lt k hb0
        have hp2 : 0 < b ^ s2 := Nat.pos_pow_of_pos s2 hb0
        have hstep : k % b * b ^ s2 + b ^ s2 ≤ b ^ (s2 + 1) := by
          calc k % b * b ^ s2 + b ^ s2 = (k % b + 1) * b ^ s2 := by ring
            _ ≤ b * b ^ s2 := Nat.mul_le_mul_right _ hmod
            _ = b ^ (s2 + 1) := by rw [pow_succ, Nat.mul_comm]
        have hv2 : vdc + k % b * b ^ s2 + b ^ s2 ≤ U32MOD := by
          have := hvs
          omega
        simp only [popLoop, hk0, if_false, hbne, hdiv,
          Nat.mod_eq_of_lt (show vdc + k % b * b ^ s2 < U32MOD by omega)]
        rw [ih (k / b) (vdc + k % b * b ^ s2) s2 (by omega) hv2]
        have : vdc + k % b * b ^ s2 + specScaledRadicalInverse b (k / b) s2
            = vdc + specScaledRadicalInverse b k (s2 + 1) := by
          show vdc + k % b * b ^ s2 + specScaledRadicalInverse b (k / b) s2
            = vdc + (k % b * b ^ s2 + specScaledRadicalInverse b (k / b) s2)
          omega
        rw [this]

/-- For a well-formed generator state (base ≥ 2, factor = base^scale not
overflowing, counter not at the wrap boundary), pop returns exactly the
scaled radical inverse of the incremented counter and advances the
counter by one. -/
theorem pop_spec (b s c : Nat) (hb : 2 ≤ b) (hrep : b ^ s < U32MOD)
    (hc : c + 1 < U32MOD) :
    (VdCorput.mk b s c (b ^ s)).pop
      = some (specScaledRadicalInverse b (c + 1) s,
              VdCorput.mk b s (c + 1) (b ^ s)) := by
  show (match popLoop b ((c + 1) % U32MOD) ((c + 1) % U32MOD) 0 (b ^ s) with
    | some v => some (v, VdCorput.mk b s ((c + 1) % U32MOD) (b ^ s))
    | none => none)
    = some (specScaledRadicalInverse b (c + 1) s,
            VdCorput.mk b s (c + 1) (b ^ s))
  rw [Nat.mod_eq_of_lt hc,
    popLoop_pow_factor b hb (c + 1) (c + 1) 0 s (le_refl _) (by omega)]
  simp

theorem popLoop_base_lt_two (b : Nat) (hb : b < 2) :
    ∀ fuel k vdc factor, 1 ≤ k → popLoop b fuel k vdc factor = none := by
  intro fuel
  induction fuel with
  | zero =>
    intro k vdc factor hk
    have hk0 : ¬ k = 0 := by omega
    simp [popLoop, hk0]
  | succ fuel ih =>
    intro k vdc factor hk
    have hk0 : ¬ k = 0 := by omega
    have hb01 : b = 0 ∨ b = 1 := by omega
    rcases hb01 with h0 | h1
    · subst h0
      simp [popLoop, hk0]
    · subst h1
      simp only [popLoop, hk0, if_false, one_ne_zero, Nat.div_one]
      exact ih k _ _ hk

/-- For base 0 or 1 the source pop never returns normally: base 0 panics
on division by zero and base 1 loops forever (k / 1 = k never reaches 0). -/
theorem pop_base_lt_two (base scale cnt f : Nat) (hb : base < 2)
    (hc : cnt + 1 < U32MOD) : (VdCorput.mk base scale cnt f).pop = none := by
  show (match popLoop base ((cnt + 1) % U32MOD) ((cnt + 1) % U32MOD) 0 f with
    | some v => some (v, VdCorput.mk base scale ((cnt + 1) % U32MOD) f)
    | none => none) = none
  rw [Nat.mod_eq_of_lt hc,
    popLoop_base_lt_two base hb (cnt + 1) (cnt + 1) 0 f (by omega)]

/-- C1: each pop() first increments count by 1 and then returns exactly
the digit-reversal reference value, the base-b digits of the new count
reversed over the denominator factor, i.e.
floor(factor * radical_inverse_base(count)); in particular for base 2,
scale 10, after reseed(0), four successive pops return 512, 256, 768,
128. -/
theorem claim_C1 (b s c : Nat) (hb : 2 ≤ b) (hrep : b ^ s < U32MOD)
    (hc : c + 1 < U32MOD) :
    (VdCorput.mk b s c (b ^ s)).pop
      = some (specScaledRadicalInverse b (c + 1) s,
              VdCorput.mk b s (c + 1) (b ^ s)) ∧
    popN ((VdCorput.new 2 10).reseed 0) 4
      = some ([512, 256, 768, 128], VdCorput.mk 2 10 4 1024) :=
  ⟨pop_spec b s c hb hrep hc, by decide⟩

theorem claim_C1_witness :
    ((2 : Nat) ≤ 2 ∧ (2 : Nat) ^ 10 < U32MOD ∧ (0 : Nat) + 1 < U32MOD) ∧
    ((VdCorput.mk 2 10 0 (2 ^ 10)).pop
        = some (specScaledRadicalInverse 2 (0 + 1) 10,
                VdCorput.mk 2 10 (0 + 1) (2 ^ 10)) ∧
      popN ((VdCorput.new 2 10).reseed 0) 4
        = some ([512, 256, 768, 128], VdCorput.mk 2 10 4 1024)) :=
  ⟨⟨by decide, by decide, by decide⟩,
    claim_C1 2 10 0 (by decide) (by decide) (by decide)⟩

/-- C2: reseed(seed) overwrites count with seed (no offset), so the next
pop returns the scaled radical inverse of seed + 1; reseed(0) then pop
equals the first pop of a freshly constructed generator; concretely with
base 2, scale 10: reseed(5) then pop = 384, and reseed(0) afterwards
then pop = 512. -/
theorem claim_C2 (b s seed c0 : Nat) (g : VdCorput) (hb : 2 ≤ b)
    (hrep : b ^ s < U32MOD) (hseed : seed + 1 < U32MOD) :
    g.reseed seed = VdCorput.mk g.base g.scale seed g.factor ∧
    ((VdCorput.mk b s c0 (b ^ s)).reseed seed).pop
      = some (specScaledRadicalInverse b (seed + 1) s,
              VdCorput.mk b s (seed + 1) (b ^ s)) ∧
    ((VdCorput.new b s).reseed 0).pop = (VdCorput.new b s).pop ∧
    ((VdCorput.new 2 10).reseed 5).pop
      = some (384, VdCorput.mk 2 10 6 1024) ∧
    ((VdCorput.mk 2 10 6 1024).reseed 0).pop
      = some (512, VdCorput.mk 2 10 1 1024) := by
  refine ⟨rfl, ?_, rfl, by decide, by decide⟩
  show (VdCorput.mk b s seed (b ^ s)).pop = _
  exact pop_spec b s seed hb hrep hseed

theorem claim_C2_witness :
    ((2 : Nat) ≤ 2 ∧ (2 : Nat) ^ 10 < U32MOD ∧ (5 : Nat) + 1 < U32MOD) ∧
    ((VdCorput.new 2 10).reseed 5
        = VdCorput.mk (VdCorput.new 2 10).base (VdCorput.new 2 10).scale 5
            (VdCorput.new 2 10).factor ∧
      ((VdCorput.mk 2 10 0 (2 ^ 10)).reseed 5).pop
        = some (specScaledRadicalInverse 2 (5 + 1) 10,
                VdCorput.mk 2 10 (5 + 1) (2 ^ 10)) ∧
      ((VdCorput.new 2 10).reseed 0).pop = (VdCorput.new 2 10).pop ∧
      ((VdCorput.new 2 10).reseed 5).pop
        = some (384, VdCorput.mk 2 10 6 1024) ∧
      ((VdCorput.mk 2 10 6 1024).reseed 0).pop
        = some (512, VdCorput.mk 2 10 1 1024)) :=
  ⟨⟨by decide, by decide, by decide⟩,
    claim_C2 2 10 5 0 (VdCorput.new 2 10) (by decide) (by decide) (by decide)⟩

/-- C3: Halton.pop returns exactly the pair of the two sub-generator
pops and Halton.reseed reseeds both sub-generators to the same seed;
concretely for Halton.new (2, 3) (11, 7) after reseed(0) the first pop
is (1024, 729) and the second is (512, 1458). -/
theorem claim_C3 (h : Halton) (seed : Nat) (v0 v1 : Nat)
    (g0 g1 : VdCorput) (h0 : h.vdc0.pop = some (v0, g0))
    (h1 : h.vdc1.pop = some (v1, g1)) :
    h.pop = some ((v0, v1), Halton.mk g0 g1) ∧
    h.reseed seed = Halton.mk (h.vdc0.reseed seed) (h.vdc1.reseed seed) ∧
    ((Halton.new (2, 3) (11, 7)).reseed 0).pop
      = some ((1024, 729),
          Halton.mk (VdCorput.mk 2 11 1 2048) (VdCorput.mk 3 7 1 2187)) ∧
    (Halton.mk (VdCorput.mk 2 11 1 2048) (VdCorput.mk 3 7 1 2187)).pop
      = some ((512, 1458),
          Halton.mk (VdCorput.mk 2 11 2 2048) (VdCorput.mk 3 7 2 2187)) := by
  refine ⟨?_, rfl, by decide, by decide⟩
  simp only [Halton.pop, h0, h1]

theorem claim_C3_witness :
    (((Halton.new (2, 3) (11, 7)).reseed 0).vdc0.pop
        = some (1024, VdCorput.mk 2 11 1 2048) ∧
      ((Halton.new (2, 3) (11, 7)).reseed 0).vdc1.pop
        = some (729, VdCorput.mk 3 7 1 2187)) ∧
    (((Halton.new (2, 3) (11, 7)).reseed 0).pop
        = some ((1024, 729),
            Halton.mk (VdCorput.mk 2 11 1 2048) (VdCorput.mk 3 7 1 2187)) ∧
      ((Halton.new (2, 3) (11, 7)).reseed 0).reseed 0
        = Halton.mk (((Halton.new (2, 3) (11, 7)).reseed 0).vdc0.reseed 0)
            (((Halton.new (2, 3) (11, 7)).reseed 0).vdc1.reseed 0) ∧
      ((Halton.new (2, 3) (11, 7)).reseed 0).pop
        = some ((1024, 729),
            Halton.mk (VdCorput.mk 2 11 1 2048) (VdCorput.mk 3 7 1 2187)) ∧
      (Halton.mk (VdCorput.mk 2 11 1 2048) (VdCorput.mk 3 7 1 2187)).pop
        = some ((512, 1458),
            Halton.mk (VdCorput.mk 2 11 2 2048) (VdCorput.mk 3 7 2 2187))) :=
  ⟨⟨by decide, by decide⟩,
    claim_C3 ((Halton.new (2, 3) (11, 7)).reseed 0) 0 1024 729
      (VdCorput.mk 2 11 1 2048) (VdCorput.mk 3 7 1 2187)
      (by decide) (by decide)⟩

/-- C4: for base ≥ 2 and base^scale representable, the value returned by
pop at any count in [1, base^scale] is strictly less than base^scale. -/
theorem claim_C4 (b s c : Nat) (hb : 2 ≤ b) (hrep : b ^ s < U32MOD)
    (hc1 : 1 ≤ c) (hc2 : c ≤ b ^ s) :
    ∃ g, (VdCorput.mk b s (c - 1) (b ^ s)).pop
        = some (specScaledRadicalInverse b c s, g)
      ∧ specScaledRadicalInverse b c s < b ^ s := by
  have hc : c - 1 + 1 = c := by omega
  refine ⟨VdCorput.mk b s c (b ^ s), ?_, srinv_lt b (by omega) s c⟩
  have h := pop_spec b s (c - 1) hb hrep (by omega)
  rwa [hc] at h

theorem claim_C4_witness :
    ((2 : Nat) ≤ 2 ∧ (2 : Nat) ^ 10 < U32MOD ∧ (1 : Nat) ≤ 1 ∧
      (1 : Nat) ≤ 2 ^ 10) ∧
    (∃ g, (VdCorput.mk 2 10 (1 - 1) (2 ^ 10)).pop
        = some (specScaledRadicalInverse 2 1 10, g)
      ∧ specScaledRadicalInverse 2 1 10 < 2 ^ 10) :=
  ⟨⟨by decide, by decide, by decide, by decide⟩,
    claim_C4 2 10 1 (by decide) (by decide) (by decide) (by decide)⟩

/-- C5: the counter-to-output map of pop is injective on counts in
[1, base^scale]: two distinct counts in that range produce distinct
outputs. -/
theorem claim_C5 (b s c1 c2 : Nat) (hb : 2 ≤ b) (hrep : b ^ s < U32MOD)
    (h11 : 1 ≤ c1) (h12 : c1 ≤ b ^ s) (h21 : 1 ≤ c2) (h22 : c2 ≤ b ^ s)
    (hne : c1 ≠ c2) :
    ∃ v1 g1 v2 g2,
      (VdCorput.mk b s (c1 - 1) (b ^ s)).pop = some (v1, g1) ∧
      (VdCorput.mk b s (c2 - 1) (b ^ s)).pop = some (v2, g2) ∧
      v1 ≠ v2 := by
  have hpos : 0 < b ^ s := Nat.pos_pow_of_pos s (by omega)
  have e1 : c1 - 1 + 1 = c1 := by omega
  have e2 : c2 - 1 + 1 = c2 := by omega
  have p1 := pop_spec b s (c1 - 1) hb hrep (by omega)
  have p2 := pop_spec b s (c2 - 1) hb hrep (by omega)
  rw [e1] at p1
  rw [e2] at p2
  refine ⟨_, _, _, _, p1, p2, ?_⟩
  intro hv
  apply hne
  have hmm : c1 % b ^ s = c2 % b ^ s := by
    apply srinv_inj b hb s _ _ (Nat.mod_lt _ hpos) (Nat.mod_lt _ hpos)
    rw [← srinv_mod, ← srinv_mod]
    exact hv
  rcases Nat.lt_or_ge c1 (b ^ s) with hl1 | hg1
  · rcases Nat.lt_or_ge c2 (b ^ s) with hl2 | hg2
    · rwa [Nat.mod_eq_of_lt hl1, Nat.mod_eq_of_lt hl2] at hmm
    · have hc2 : c2 = b ^ s := by omega
      rw [Nat.mod_eq_of_lt hl1, hc2, Nat.mod_self] at hmm
      omega
  · have hc1 : c1 = b ^ s := by omega
    rcases Nat.lt_or_ge c2 (b ^ s) with hl2 | hg2
    · rw [hc1, Nat.mod_self, Nat.mod_eq_of_lt hl2] at hmm
      omega
    · have hc2 : c2 = b ^ s := by omega
      rw [hc1, hc2]

theorem claim_C5_witness :
    ((2 : Nat) ≤ 2 ∧ (2 : Nat) ^ 2 < U32MOD ∧ (1 : Nat) ≤ 1 ∧
      (1 : Nat) ≤ 2 ^ 2 ∧ (1 : Nat) ≤ 2 ∧ (2 : Nat) ≤ 2 ^ 2 ∧
      (1 : Nat) ≠ 2) ∧
    (∃ v1 g1 v2 g2,
      (VdCorput.mk 2 2 (1 - 1) (2 ^ 2)).pop = some (v1, g1) ∧
      (VdCorput.mk 2 2 (2 - 1) (2 ^ 2)).pop = some (v2, g2) ∧
      v1 ≠ v2) :=
  ⟨⟨by decide, by decide, by decide, by decide, by decide, by decide,
      by decide⟩,
    claim_C5 2 2 1 2 (by decide) (by decide) (by decide) (by decide)
      (by decide) (by decide) (by decide)⟩

/-- C6 counterexample: constructing a generator with base 1 (or base 0)
does not fail: new performs no precondition check and returns an
ordinary state; the failure instead occurs at the first pop
(nontermination of the digit loop for base 1, division-by-zero panic
for base 0), both modelled by pop returning none. -/
theorem claim_C6_counterexample :
    VdCorput.new 1 3 = VdCorput.mk 1 3 0 1 ∧
    (VdCorput.new 1 3).pop = none ∧
    VdCorput.new 0 5 = VdCorput.mk 0 5 0 0 ∧
    (VdCorput.new 0 5).pop = none :=
  ⟨by decide, by decide, by decide, by decide⟩

/-- C6 amended: for base < 2 the constructor performs no validation and
succeeds, returning the state with count 0 and factor base^scale; the
failure occurs only at the first pop, which never returns normally
(base 0 panics on division by zero, base 1 loops forever). -/
theorem claim_C6_amended (b s seed : Nat) (hb : b < 2)
    (hseed : seed + 1 < U32MOD) :
    VdCorput.new b s = VdCorput.mk b s 0 (b ^ s % U32MOD) ∧
    ((VdCorput.new b s).reseed seed).pop = none :=
  ⟨rfl, pop_base_lt_two b s seed (b ^ s % U32MOD) hb hseed⟩

theorem claim_C6_amended_witness :
    ((1 : Nat) < 2 ∧ (0 : Nat) + 1 < U32MOD) ∧
    (VdCorput.new 1 3 = VdCorput.mk 1 3 0 (1 ^ 3 % U32MOD) ∧
      ((VdCorput.new 1 3).reseed 0).pop = none) :=
  ⟨⟨by decide, by decide⟩, claim_C6_amended 1 3 0 (by decide) (by decide)⟩

/-- C7 counterexample: VdCorput.new 2 32 does not detect the overflow of
2^32: it silently stores the wrapped factor 0 and construction
succeeds. -/
theorem claim_C7_counterexample :
    VdCorput.new 2 32 = VdCorput.mk 2 32 0 0 ∧
    (VdCorput.new 2 32).factor ≠ 2 ^ 32 :=
  ⟨by decide, by decide⟩

/-- C7 amended: when base^scale exceeds the u32 range, new performs no
overflow detection: it succeeds and stores base^scale wrapped modulo
2^32 in factor, a value different from the true base^scale. -/
theorem claim_C7_amended (b s : Nat) (hover : U32MOD ≤ b ^ s) :
    VdCorput.new b s = VdCorput.mk b s 0 (b ^ s % U32MOD) ∧
    (VdCorput.new b s).factor ≠ b ^ s := by
  refine ⟨rfl, ?_⟩
  show b ^ s % U32MOD ≠ b ^ s
  have h1 : b ^ s % U32MOD < U32MOD := Nat.mod_lt _ (by decide)
  omega

theorem claim_C7_amended_witness :
    (U32MOD ≤ (2 : Nat) ^ 32) ∧
    (VdCorput.new 2 32 = VdCorput.mk 2 32 0 (2 ^ 32 % U32MOD) ∧
      (VdCorput.new 2 32).factor ≠ 2 ^ 32) :=
  ⟨by decide, claim_C7_amended 2 32 (by decide)⟩

/-- C8: past the boundary, higher-order digits of count are dropped, so
collisions exist: for any count value c + 1, the count c + base^scale + 1
(which exceeds base^scale) produces the same pop output. -/
theorem claim_C8 (b s c : Nat) (hb : 2 ≤ b) (hrep : b ^ s < U32MOD)
    (hc : c + 1 + b ^ s < U32MOD) :
    ∃ v g1 g2,
      (VdCorput.mk b s c (b ^ s)).pop = some (v, g1) ∧
      (VdCorput.mk b s (c + b ^ s) (b ^ s)).pop = some (v, g2) ∧
      c + 1 ≠ c + b ^ s + 1 ∧ b ^ s < c + b ^ s + 1 := by
  have hpos : 0 < b ^ s := Nat.pos_pow_of_pos s (by omega)
  have p1 := pop_spec b s c hb hrep (by omega)
  have p2 := pop_spec b s (c + b ^ s) hb hrep (by omega)
  have he : specScaledRadicalInverse b (c + b ^ s + 1) s
      = specScaledRadicalInverse b (c + 1) s := by
    rw [srinv_mod b s (c + b ^ s + 1), srinv_mod b s (c + 1)]
    have h : c + b ^ s + 1 = c + 1 + b ^ s := by omega
    rw [h, Nat.add_mod_right]
  refine ⟨specScaledRadicalInverse b (c + 1) s,
    VdCorput.mk b s (c + 1) (b ^ s),
    VdCorput.mk b s (c + b ^ s + 1) (b ^ s), p1, ?_, by omega, by omega⟩
  rw [p2, he]

theorem claim_C8_witness :
    ((2 : Nat) ≤ 2 ∧ (2 : Nat) ^ 2 < U32MOD ∧
      (0 : Nat) + 1 + 2 ^ 2 < U32MOD) ∧
    (∃ v g1 g2,
      (VdCorput.mk 2 2 0 (2 ^ 2)).pop = some (v, g1) ∧
      (VdCorput.mk 2 2 (0 + 2 ^ 2) (2 ^ 2)).pop = some (v, g2) ∧
      (0 : Nat) + 1 ≠ 0 + 2 ^ 2 + 1 ∧ (2 : Nat) ^ 2 < 0 + 2 ^ 2 + 1) :=
  ⟨⟨by decide, by decide, by decide⟩,
    claim_C8 2 2 0 (by decide) (by decide) (by decide)⟩

/-- C9: determinism: two generators that agree on base, scale and the
cached factor (as any two generators independently constructed by new
with the same base and scale do), once reseeded to the same seed,
produce identical sequences of pop outputs of every length. -/
theorem claim_C9 (g1 g2 : VdCorput) (seed n : Nat)
    (hb : g1.base = g2.base) (hs : g1.scale = g2.scale)
    (hf : g1.factor = g2.factor) :
    popN (g1.reseed seed) n = popN (g2.reseed seed) n := by
  have h : g1.reseed seed = g2.reseed seed := by
    cases g1
    cases g2
    simp_all [VdCorput.reseed]
  rw [h]

theorem claim_C9_witness :
    ((VdCorput.new 2 10).base = (VdCorput.new 2 10).base ∧
      (VdCorput.new 2 10).scale = (VdCorput.new 2 10).scale ∧
      (VdCorput.new 2 10).factor = (VdCorput.new 2 10).factor) ∧
    popN ((VdCorput.new 2 10).reseed 7) 3
      = popN ((VdCorput.new 2 10).reseed 7) 3 :=
  ⟨⟨rfl, rfl, rfl⟩,
    claim_C9 (VdCorput.new 2 10) (VdCorput.new 2 10) 7 3 rfl rfl rfl⟩

/-- C10: for a well-formed generator (base ≥ 2, factor = base^scale not
overflowing), pop returns normally and its value is strictly below
factor for every u32 value of count, including counts past the
collision boundary base^scale: the accumulated sum never reaches factor
and never overflows u32. -/
theorem claim_C10 (b s c : Nat) (hb : 2 ≤ b) (hrep : b ^ s < U32MOD)
    (hc : c < U32MOD) :
    ∃ v g, (VdCorput.mk b s c (b ^ s)).pop = some (v, g) ∧ v < b ^ s := by
  have hpos : 0 < b ^ s := Nat.pos_pow_of_pos s (by omega)
  by_cases h1 : c + 1 < U32MOD
  · exact ⟨_, _, pop_spec b s c hb hrep h1,
      srinv_lt b (by omega) s (c + 1)⟩
  · have hceq : c + 1 = U32MOD := by omega
    refine ⟨0, VdCorput.mk b s 0 (b ^ s), ?_, hpos⟩
    show (match popLoop b ((c + 1) % U32MOD) ((c + 1) % U32MOD) 0 (b ^ s) with
      | some v => some (v, VdCorput.mk b s ((c + 1) % U32MOD) (b ^ s))
      | none => none) = some (0, VdCorput.mk b s 0 (b ^ s))
    rw [hceq, Nat.mod_self]
    rfl

theorem claim_C10_witness :
    ((2 : Nat) ≤ 2 ∧ (2 : Nat) ^ 3 < U32MOD ∧ (100 : Nat) < U32MOD) ∧
    (∃ v g, (VdCorput.mk 2 3 100 (2 ^ 3)).pop = some (v, g) ∧ v < 2 ^ 3) :=
  ⟨⟨by decide, by decide, by decide⟩,
    claim_C10 2 3 100 (by decide) (by decide) (by decide)⟩

end LdsGen
